import Mathlib

/-!
Verification of the event subscription/dispatch core of
`src/app/script/events_class.cpp` (Aseprite's Lua `Events` binding).

The embedding translates the anonymous-namespace `Events` class and its two
concrete subclasses (`AppEvents`, `SpriteEvents`) plus the Lua glue functions
(`Events_on`, `Events_off`) into executable Lean definitions:

* `m_listeners : std::vector<std::vector<EventListener>>` becomes
  `List (List Int)`; `EventListener` (`int` callback refs) becomes `Int`.
* the two virtual hooks `onAddFirstListener` / `onRemoveLastListener` are
  made observable by having `add` / `remove` return the list of hook
  invocations they perform, in order.
* the Lua C API surface that the glue code touches (`lua_tostring`,
  `luaL_ref`, `luaL_unref`, `lua_isfunction`, `lua_isinteger`,
  the registry scan with `lua_next`/`lua_compare`) is modelled from its
  documented contract by a small value type `LuaValue` and a registry of
  `(ref, function-identity)` pairs.
-/

/-- `using EventListener = int;` (a Lua registry reference). -/
abbrev EventListener := Int

/-- State of one `Events` instance: the field
`std::vector<EventListeners> m_listeners` where
`using EventListeners = std::vector<EventListener>`. -/
structure EventsState where
  m_listeners : List (List EventListener)
deriving DecidableEq, Repr

/-- Observable invocations of the two pure-virtual hooks
`onAddFirstListener(eventType)` and `onRemoveLastListener(eventType)`. -/
inductive Hook
  | addFirst (eventType : Nat)
  | removeLast (eventType : Nat)
deriving DecidableEq, Repr

/-- Number of occurrences of one hook invocation in a hook trace. -/
def countHook (hk : Hook) (l : List Hook) : Nat :=
  (l.filter (fun x => decide (x = hk))).length

/-- The listener list stored for event type `e`; out-of-range indices read as
an empty list, matching a `std::vector` that has not grown that far yet. -/
def listAt (st : EventsState) (e : Nat) : List EventListener :=
  st.m_listeners.getD e []

/-- `Events::hasListener`: scans every event type's list for `callbackRef`. -/
def Events.hasListener (st : EventsState) (callbackRef : EventListener) : Bool :=
  st.m_listeners.any (fun listeners => listeners.any (fun x => x == callbackRef))

/-- `Events::add(eventType, callbackRef)`: grows `m_listeners` on demand
(`resize(eventType+1)` when `eventType >= m_listeners.size()`), appends the
ref (`push_back`), and fires `onAddFirstListener(eventType)` exactly when the
list's size just became 1.  The caller (`Events_on`) guarantees
`eventType >= 0`, so the index is a `Nat` here. -/
def Events.add (st : EventsState) (eventType : Nat) (callbackRef : EventListener) :
    EventsState × List Hook :=
  let ls :=
    if st.m_listeners.length ≤ eventType then
      st.m_listeners ++ List.replicate (eventType + 1 - st.m_listeners.length) []
    else st.m_listeners
  let listeners := ls.getD eventType [] ++ [callbackRef]
  (⟨ls.set eventType listeners⟩,
   if listeners.length = 1 then [Hook.addFirst eventType] else [])

/-- The erase-all inner loop of `Events::remove` on one list: the iterator
loop `if (*it == callbackRef) { removed = true; it = listeners.erase(it); }`
removes every occurrence. -/
def eraseAll (listeners : List EventListener) (callbackRef : EventListener) :
    List EventListener :=
  listeners.filter (fun x => x != callbackRef)

/-- The outer loop of `Events::remove`: for each index `i`, erase all
occurrences; if something was removed and the list is now empty, fire
`onRemoveLastListener(i)`.  `i` is the index of the head of the remaining
suffix. -/
def removeLoop (callbackRef : EventListener) :
    List (List EventListener) → Nat → List (List EventListener) × List Hook
  | [], _ => ([], [])
  | listeners :: rest, i =>
    let erased := eraseAll listeners callbackRef
    let removed := listeners.any (fun x => x == callbackRef)
    let tail := removeLoop callbackRef rest (i + 1)
    (erased :: tail.1,
     (if removed && erased.isEmpty then [Hook.removeLast i] else []) ++ tail.2)

/-- `Events::remove(callbackRef)`. -/
def Events.remove (st : EventsState) (callbackRef : EventListener) :
    EventsState × List Hook :=
  let res := removeLoop callbackRef st.m_listeners 0
  (⟨res.1⟩, res.2)

/-- Outcome of invoking one registered callback:
`lua_pcall` succeeds, or it fails and `lua_tostring(L, -1)` yields the error
message (`none` when the Lua error object has no string representation, in
which case nothing is printed). -/
inductive CallResult
  | ok
  | err (msg : Option String)
deriving DecidableEq, Repr

/-- The error message surfaced to `engine->consolePrint` by one callback
outcome, if any. -/
def errMsgOf : CallResult → Option String
  | CallResult.ok => none
  | CallResult.err m => m

/-- The loop body of `Events::call`: invoke each callback in order; when
`lua_pcall` reports failure and the error object has a string form, print it
to the console; always continue with the next callback.  Returns the refs
invoked (in order) and the console messages (in order). -/
def callLoop (runCb : EventListener → CallResult) :
    List EventListener → List EventListener × List String
  | [] => ([], [])
  | callbackRef :: rest =>
    let tail := callLoop runCb rest
    match runCb callbackRef with
    | CallResult.ok => (callbackRef :: tail.1, tail.2)
    | CallResult.err none => (callbackRef :: tail.1, tail.2)
    | CallResult.err (some s) => (callbackRef :: tail.1, s :: tail.2)

/-- `Events::call(eventType)`: returns early when `eventType` is beyond
`m_listeners.size()`, else runs every callback registered for `eventType`.
The surrounding `lua_pcall` per callback and the `try/catch` around the loop
mean no script error propagates to the native caller: the function always
returns normally, which the total return type reflects.  `runCb` abstracts
the scripting engine's invocation of one callback ref. -/
def Events.call (st : EventsState) (eventType : Nat)
    (runCb : EventListener → CallResult) : List EventListener × List String :=
  if st.m_listeners.length ≤ eventType then ([], [])
  else callLoop runCb (st.m_listeners.getD eventType [])

example : Events.add ⟨[]⟩ 1 7 = (⟨[[], [7]]⟩, [Hook.addFirst 1]) := by decide
example : Events.add ⟨[[], [5]]⟩ 1 7 = (⟨[[], [5, 7]]⟩, []) := by decide
example : Events.remove ⟨[[5], [7, 5]]⟩ 5 =
    (⟨[[], [7]]⟩, [Hook.removeLast 0]) := by decide
example : Events.remove ⟨[[5], [5, 5]]⟩ 5 =
    (⟨[[], []]⟩, [Hook.removeLast 0, Hook.removeLast 1]) := by decide
example : Events.remove ⟨[[], [7]]⟩ 5 = (⟨[[], [7]]⟩, []) := by decide
example : Events.hasListener ⟨[[], [7]]⟩ 7 = true := by decide
example : Events.call ⟨[[1, 2, 3]]⟩ 0
      (fun r => if r = 2 then CallResult.err (some "boom") else CallResult.ok) =
    ([1, 2, 3], ["boom"]) := by decide

/-- `enum : EventType { Unknown = -1, SiteChange, FgColorChange, BgColorChange }`. -/
def AppEvents.Unknown : Int := -1

def AppEvents.SiteChange : Int := 0

def AppEvents.FgColorChange : Int := 1

def AppEvents.BgColorChange : Int := 2

/-- `AppEvents::eventType`: a chain of `std::strcmp(eventName, ...) == 0`
tests — exact, case-sensitive string comparison. -/
def AppEvents.eventType (eventName : String) : Int :=
  if eventName = "sitechange" then AppEvents.SiteChange
  else if eventName = "fgcolorchange" then AppEvents.FgColorChange
  else if eventName = "bgcolorchange" then AppEvents.BgColorChange
  else AppEvents.Unknown

/-- `enum : EventType { Unknown = -1, Change, FilenameChange }` of `SpriteEvents`. -/
def SpriteEvents.Unknown : Int := -1

def SpriteEvents.Change : Int := 0

def SpriteEvents.FilenameChange : Int := 1

/-- `SpriteEvents::eventType`: `strcmp` chain, case-sensitive. -/
def SpriteEvents.eventType (eventName : String) : Int :=
  if eventName = "change" then SpriteEvents.Change
  else if eventName = "filenamechange" then SpriteEvents.FilenameChange
  else SpriteEvents.Unknown

/-- A Lua stack value, as far as the glue code discriminates them:
`nil`, a string, an integer number, a non-integer (float) number — carried
by the decimal string that `lua_tostring`'s conversion would produce for it
(e.g. `"7.5"`; no such numeral string equals a recognized event name) — a
function (identified by the identity that `lua_compare(..., LUA_OPEQ)`
tests), or anything else (tables, booleans, userdata, threads). -/
inductive LuaValue
  | nil
  | str (s : String)
  | num (n : Int)
  | flt (s : String)
  | func (fid : Nat)
  | other
deriving DecidableEq, Repr

/-- `lua_tostring` (documented Lua C API contract): yields the string for a
string value, converts every number — integer or float — to its decimal
string, and returns `NULL` (`none`) for every other type. -/
def lua_tostring : LuaValue → Option String
  | LuaValue.str s => some s
  | LuaValue.num n => some (toString n)
  | LuaValue.flt s => some s
  | _ => none

/-- The process-wide Lua registry slice holding the registered callbacks:
association of callback ref (`luaL_ref` result, always ≥ 1) to the identity
of the stored function value, plus the next fresh ref. -/
structure LuaRegistry where
  entries : List (Int × Nat)
  nextRef : Int
deriving DecidableEq, Repr

/-- `LUA_REFNIL` sentinel. -/
def LUA_REFNIL : Int := -1

/-- `luaL_ref(L, LUA_REGISTRYINDEX)` on a function value: stores the value
under a fresh reference and returns that reference. -/
def luaL_ref (reg : LuaRegistry) (fid : Nat) : Int × LuaRegistry :=
  (reg.nextRef, ⟨reg.entries ++ [(reg.nextRef, fid)], reg.nextRef + 1⟩)

/-- `luaL_unref(L, LUA_REGISTRYINDEX, ref)`: releases the reference. -/
def luaL_unref (reg : LuaRegistry) (ref : Int) : LuaRegistry :=
  ⟨reg.entries.filter (fun p => p.1 != ref), reg.nextRef⟩

/-- What `Events_on` leaves on the Lua stack: no return values
(`return 0`), a raised script error (`luaL_error`), or the pushed callback
ref (`lua_pushinteger(L, callbackRef); return 1`). -/
inductive OnOutcome
  | noValue
  | error (msg : String)
  | handle (ref : Int)
deriving DecidableEq, Repr

/-- `Events_on(L)`: reads the event name with `lua_tostring(L, 2)` (silently
returning no value when that yields `NULL`), rejects unrecognized names and
non-function callbacks with script errors, otherwise refs the callback into
the registry, `add`s the ref, and returns it.  `evType` stands for the
virtual `evs->eventType` of the concrete subclass. -/
def Events_on (evType : String → Int) (evs : EventsState) (reg : LuaRegistry)
    (arg2 arg3 : LuaValue) : OnOutcome × EventsState × LuaRegistry :=
  match lua_tostring arg2 with
  | none => (OnOutcome.noValue, evs, reg)
  | some eventName =>
    let type := evType eventName
    if type < 0 then (OnOutcome.error "invalid event name to listen", evs, reg)
    else
      match arg3 with
      | LuaValue.func fid =>
        let refAndReg := luaL_ref reg fid
        let addRes := Events.add evs type.toNat refAndReg.1
        (OnOutcome.handle refAndReg.1, addRes.1, refAndReg.2)
      | _ => (OnOutcome.error "second argument must be a function", evs, reg)

/-- Tail of `Events_off` after `callbackRef` is resolved: remove and unref
only when the ref is not `LUA_REFNIL` and this `Events` instance owns it
(`evs->hasListener(callbackRef)`). -/
def Events_offFinish (evs : EventsState) (reg : LuaRegistry)
    (callbackRef : Int) : Option String × EventsState × LuaRegistry :=
  if callbackRef != LUA_REFNIL && Events.hasListener evs callbackRef then
    (none, (Events.remove evs callbackRef).1, luaL_unref reg callbackRef)
  else (none, evs, reg)

/-- `Events_off(L)`: an integer argument is the ref itself; a function
argument triggers a scan of the Lua registry (`lua_next` over numeric keys
with function values) for the first entry whose value is identical
(`lua_compare(..., LUA_OPEQ)`) to the argument and which this instance owns;
any other argument raises a script error. -/
def Events_off (evs : EventsState) (reg : LuaRegistry) (arg2 : LuaValue) :
    Option String × EventsState × LuaRegistry :=
  match arg2 with
  | LuaValue.num n => Events_offFinish evs reg n
  | LuaValue.func fid =>
    match reg.entries.find? (fun p => p.2 == fid && Events.hasListener evs p.1) with
    | some p => Events_offFinish evs reg p.1
    | none => Events_offFinish evs reg LUA_REFNIL
  | _ => (some "first argument must be a function or a EventListener", evs, reg)

example : Events_on AppEvents.eventType ⟨[]⟩ ⟨[], 1⟩
      (LuaValue.str "sitechange") (LuaValue.func 4) =
    (OnOutcome.handle 1, ⟨[[1]]⟩, ⟨[(1, 4)], 2⟩) := by decide
example : Events_on AppEvents.eventType ⟨[]⟩ ⟨[], 1⟩
      (LuaValue.str "Sitechange") (LuaValue.func 4) =
    (OnOutcome.error "invalid event name to listen", ⟨[]⟩, ⟨[], 1⟩) := by decide
example : Events_on AppEvents.eventType ⟨[]⟩ ⟨[], 1⟩
      LuaValue.nil (LuaValue.func 4) = (OnOutcome.noValue, ⟨[]⟩, ⟨[], 1⟩) := by decide
example : Events_on AppEvents.eventType ⟨[]⟩ ⟨[], 1⟩
      (LuaValue.num 7) (LuaValue.func 4) =
    (OnOutcome.error "invalid event name to listen", ⟨[]⟩, ⟨[], 1⟩) := by decide
example : Events_on AppEvents.eventType ⟨[]⟩ ⟨[], 1⟩
      (LuaValue.flt "7.5") (LuaValue.func 4) =
    (OnOutcome.error "invalid event name to listen", ⟨[]⟩, ⟨[], 1⟩) := by decide
example : Events_off ⟨[[1]]⟩ ⟨[(1, 4)], 2⟩ (LuaValue.flt "7.5") =
    (some "first argument must be a function or a EventListener",
     ⟨[[1]]⟩, ⟨[(1, 4)], 2⟩) := by decide
example : Events_off ⟨[[1]]⟩ ⟨[(1, 4)], 2⟩ (LuaValue.num 1) =
    (none, ⟨[[]]⟩, ⟨[], 2⟩) := by decide
example : Events_off ⟨[[1]]⟩ ⟨[(1, 4)], 2⟩ (LuaValue.func 4) =
    (none, ⟨[[]]⟩, ⟨[], 2⟩) := by decide
example : Events_off ⟨[[1]]⟩ ⟨[(1, 4)], 2⟩ (LuaValue.num 9) =
    (none, ⟨[[1]]⟩, ⟨[(1, 4)], 2⟩) := by decide
example : Events_off ⟨[[1]]⟩ ⟨[(1, 4)], 2⟩ (LuaValue.str "x") =
    (some "first argument must be a function or a EventListener",
     ⟨[[1]]⟩, ⟨[(1, 4)], 2⟩) := by decide

/-- State of one `SpriteEvents` instance: the stored `ObjectId m_spriteId`
and the `bool m_observingUndo` flag. -/
structure SpriteEventsState where
  m_spriteId : Nat
  m_observingUndo : Bool
deriving DecidableEq, Repr

/-- `SpriteEvents::doc()`: resolves `m_spriteId` through
`doc::get<Sprite>` on every access; `none` models the null `Doc*` returned
when the sprite no longer exists.  `resolvable` abstracts the global object
table. -/
def SpriteEvents.doc (resolvable : Nat → Bool) (st : SpriteEventsState) :
    Option Unit :=
  if resolvable st.m_spriteId then some () else none

/-- `SpriteEvents::disconnectFromUndoHistory(Doc* doc)`: when
`m_observingUndo` is set it executes `doc->undoHistory()->remove_observer`
— with a null `doc` this dereferences a null pointer, modelled as
`Except.error`. -/
def SpriteEvents.disconnectFromUndoHistory (st : SpriteEventsState)
    (doc : Option Unit) : Except String SpriteEventsState :=
  if st.m_observingUndo then
    match doc with
    | some _ => Except.ok { st with m_observingUndo := false }
    | none => Except.error "null pointer dereference: doc->undoHistory()"
  else Except.ok st

/-- `SpriteEvents::onRemoveLastListener(eventType)`: for `Change` it calls
`disconnectFromUndoHistory(doc())` with no null check on `doc()`. -/
def SpriteEvents.onRemoveLastListener (resolvable : Nat → Bool)
    (st : SpriteEventsState) (eventType : Int) : Except String SpriteEventsState :=
  if eventType = SpriteEvents.Change then
    SpriteEvents.disconnectFromUndoHistory st (SpriteEvents.doc resolvable st)
  else Except.ok st

/-- Observable side effects of `~SpriteEvents()`. -/
inductive DtorAction
  | disconnectUndo
  | removeDocObserver
deriving DecidableEq, Repr

/-- `~SpriteEvents()`: `if (doc) { disconnectFromUndoHistory(doc);
doc->remove_observer(this); }` — guarded by a null check, and the
undo-history unsubscribe (performed only when `m_observingUndo`) strictly
precedes releasing the document observer registration. -/
def SpriteEvents.dtor (resolvable : Nat → Bool) (st : SpriteEventsState) :
    List DtorAction :=
  if resolvable st.m_spriteId then
    (if st.m_observingUndo then [DtorAction.disconnectUndo] else []) ++
      [DtorAction.removeDocObserver]
  else []

/-- `SpriteEvents::onCloseDocument`: looks its own `m_spriteId` up in the
process-wide `g_spriteEvents` map and erases that entry, which (the map
owning the instance through `unique_ptr`) runs `~SpriteEvents()`
synchronously.  The registry is modelled as a list of instances keyed by
their `m_spriteId` (a `std::map`, so keys are unique). -/
def SpriteEvents.onCloseDocument (resolvable : Nat → Bool)
    (reg : List SpriteEventsState) (self : SpriteEventsState) :
    List SpriteEventsState × List DtorAction :=
  match reg.find? (fun st => st.m_spriteId == self.m_spriteId) with
  | some entry =>
    (reg.filter (fun st => st.m_spriteId != self.m_spriteId),
     SpriteEvents.dtor resolvable entry)
  | none => (reg, [])

/-- The `App::instance()->Exit` handler installed by `push_sprite_events`:
`g_spriteEvents.clear()`, destroying every remaining instance (each
destructor running in turn). -/
def clearRegistry (resolvable : Nat → Bool) (reg : List SpriteEventsState) :
    List SpriteEventsState × List DtorAction :=
  ([], (reg.map (SpriteEvents.dtor resolvable)).flatten)

example : SpriteEvents.onCloseDocument (fun _ => true) [⟨1, true⟩, ⟨2, false⟩] ⟨1, true⟩ =
    ([⟨2, false⟩], [DtorAction.disconnectUndo, DtorAction.removeDocObserver]) := by decide
example : clearRegistry (fun _ => true) [⟨1, true⟩, ⟨2, false⟩] =
    ([], [DtorAction.disconnectUndo, DtorAction.removeDocObserver,
          DtorAction.removeDocObserver]) := by decide
example : SpriteEvents.onRemoveLastListener (fun _ => false) ⟨1, true⟩ SpriteEvents.Change =
    Except.error "null pointer dereference: doc->undoHistory()" := rfl

/-! ## List helper lemmas -/

theorem getD_replicate_self {α : Type} (d : α) (k e : Nat) :
    (List.replicate k d).getD e d = d := by
  induction k generalizing e with
  | zero => simp [List.getD]
  | succ n ih =>
    cases e with
    | zero => simp [List.replicate]
    | succ m => simp [List.replicate, List.getD_cons_succ, ih m]

theorem getD_append_replicate {α : Type} (d : α) (l : List α) (k e : Nat) :
    (l ++ List.replicate k d).getD e d = l.getD e d := by
  by_cases h : e < l.length
  · exact List.getD_append l _ d e h
  · rw [List.getD_append_right l _ d e (Nat.le_of_not_lt h),
      List.getD_eq_default l d (Nat.le_of_not_lt h), getD_replicate_self]

theorem getD_set_self {α : Type} (d x : α) (l : List α) (i : Nat)
    (h : i < l.length) : (l.set i x).getD i d = x := by
  induction l generalizing i with
  | nil => simp at h
  | cons a t ih =>
    cases i with
    | zero => simp
    | succ n => simpa [List.getD_cons_succ] using ih n (by simpa using h)

theorem getD_set_ne {α : Type} (d x : α) (l : List α) (i j : Nat)
    (h : i ≠ j) : (l.set i x).getD j d = l.getD j d := by
  induction l generalizing i j with
  | nil => simp
  | cons a t ih =>
    cases i with
    | zero =>
      cases j with
      | zero => exact absurd rfl h
      | succ m => simp [List.getD_cons_succ]
    | succ n =>
      cases j with
      | zero => simp
      | succ m =>
        simpa [List.getD_cons_succ] using ih n m (fun hh => h (by rw [hh]))

/-! ## Characterization of `Events::add` -/

theorem add_resized_getD (st : EventsState) (eventType e : Nat) :
    (if st.m_listeners.length ≤ eventType then
       st.m_listeners ++ List.replicate (eventType + 1 - st.m_listeners.length) []
     else st.m_listeners).getD e [] = st.m_listeners.getD e [] := by
  by_cases h : st.m_listeners.length ≤ eventType
  · rw [if_pos h]; exact getD_append_replicate [] _ _ _
  · rw [if_neg h]

theorem add_resized_lt (st : EventsState) (eventType : Nat) :
    eventType < (if st.m_listeners.length ≤ eventType then
       st.m_listeners ++ List.replicate (eventType + 1 - st.m_listeners.length) []
     else st.m_listeners).length := by
  by_cases h : st.m_listeners.length ≤ eventType
  · rw [if_pos h]; simp; omega
  · rw [if_neg h]; omega

/-- `add` fires `onAddFirstListener(eventType)` exactly when the target list
was empty before, and fires nothing else. -/
theorem add_hooks (st : EventsState) (eventType : Nat) (r : EventListener) :
    (Events.add st eventType r).2 =
      if listAt st eventType = [] then [Hook.addFirst eventType] else [] := by
  simp only [Events.add, add_resized_getD, listAt]
  by_cases h : st.m_listeners.getD eventType [] = []
  · rw [if_pos (by rw [h]; rfl), if_pos h]
  · have hne : (st.m_listeners.getD eventType [] ++ [r]).length ≠ 1 := by
      intro hc
      rw [List.length_append, List.length_singleton] at hc
      exact h (List.length_eq_zero.mp (by omega))
    rw [if_neg hne, if_neg h]

/-- Effect of `add` on each listener list: appends to the target list, leaves
every other list unchanged. -/
theorem add_listAt (st : EventsState) (e' : Nat) (r : EventListener) (e : Nat) :
    listAt (Events.add st e' r).1 e =
      if e = e' then listAt st e ++ [r] else listAt st e := by
  by_cases h : e = e'
  · subst h
    rw [if_pos rfl]
    simp only [Events.add, listAt]
    rw [getD_set_self _ _ _ _ (add_resized_lt st e), add_resized_getD]
  · rw [if_neg h]
    simp only [Events.add, listAt]
    rw [getD_set_ne _ _ _ _ _ (fun hh => h hh.symm), add_resized_getD]

/-! ## Characterization of `Events::remove` -/

/-- Fire condition of `onRemoveLastListener` for one list: something was
removed (`removed`) and the list is now empty. -/
def fires (r : EventListener) (l : List EventListener) : Bool :=
  l.any (fun x => x == r) && (eraseAll l r).isEmpty

theorem removeLoop_fst (r : EventListener) :
    ∀ (ls : List (List EventListener)) (i : Nat),
      (removeLoop r ls i).1 = ls.map (fun l => eraseAll l r)
  | [], _ => rfl
  | l :: rest, i => by
    simp only [removeLoop, List.map_cons]
    rw [removeLoop_fst r rest (i + 1)]

theorem remove_listAt (st : EventsState) (r : EventListener) (e : Nat) :
    listAt (Events.remove st r).1 e = eraseAll (listAt st e) r := by
  simp only [Events.remove, listAt, removeLoop_fst]
  generalize st.m_listeners = ls
  induction ls generalizing e with
  | nil => simp [eraseAll]
  | cons a t ih =>
    cases e with
    | zero => simp
    | succ m => simpa [List.getD_cons_succ] using ih m

theorem countHook_append (hk : Hook) (a b : List Hook) :
    countHook hk (a ++ b) = countHook hk a + countHook hk b := by
  simp [countHook, List.filter_append]

theorem countHook_single_removeLast (i e : Nat) :
    countHook (Hook.removeLast e) [Hook.removeLast i] = if i = e then 1 else 0 := by
  by_cases h : i = e <;> simp [countHook, h]

theorem countHook_single_addFirst (i e : Nat) :
    countHook (Hook.addFirst e) [Hook.addFirst i] = if i = e then 1 else 0 := by
  by_cases h : i = e <;> simp [countHook, h]

theorem removeLoop_count (r : EventListener) :
    ∀ (ls : List (List EventListener)) (i e : Nat),
      countHook (Hook.removeLast e) (removeLoop r ls i).2 =
        if i ≤ e ∧ fires r (ls.getD (e - i) []) = true then 1 else 0
  | [], i, e => by
    simp [removeLoop, countHook, fires, eraseAll]
  | l :: rest, i, e => by
    have ih := removeLoop_count r rest (i + 1) e
    simp only [removeLoop, countHook_append]
    rw [ih]
    rcases Nat.lt_trichotomy i e with hlt | heq | hgt
    · have hsub : e - i = (e - (i + 1)) + 1 := by omega
      rw [hsub, List.getD_cons_succ]
      have hhead : countHook (Hook.removeLast e)
          (if (l.any fun x => x == r) && (eraseAll l r).isEmpty then
            [Hook.removeLast i] else []) = 0 := by
        by_cases hc : ((l.any fun x => x == r) && (eraseAll l r).isEmpty) = true
        · rw [if_pos hc, countHook_single_removeLast, if_neg (by omega)]
        · rw [if_neg hc]; rfl
      rw [hhead]
      have h1 : i ≤ e := Nat.le_of_lt hlt
      have h2 : i + 1 ≤ e := hlt
      simp [h1, h2]
    · subst heq
      have htail : ¬(i + 1 ≤ i ∧ fires r (rest.getD (i - (i + 1)) []) = true) := by
        rintro ⟨hc, _⟩; omega
      rw [if_neg htail, Nat.sub_self, List.getD_cons_zero]
      by_cases hc : fires r l = true
      · rw [if_pos (⟨Nat.le_refl i, hc⟩ : i ≤ i ∧ fires r l = true)]
        have hc2 : ((l.any fun x => x == r) && (eraseAll l r).isEmpty) = true := hc
        rw [if_pos hc2, countHook_single_removeLast, if_pos rfl]
      · have hc2 : ¬((l.any fun x => x == r) && (eraseAll l r).isEmpty) = true := hc
        rw [if_neg hc2, if_neg (fun hh => hc hh.2)]
        rfl
    · have hhead : countHook (Hook.removeLast e)
          (if (l.any fun x => x == r) && (eraseAll l r).isEmpty then
            [Hook.removeLast i] else []) = 0 := by
        by_cases hc : ((l.any fun x => x == r) && (eraseAll l r).isEmpty) = true
        · rw [if_pos hc, countHook_single_removeLast, if_neg (by omega)]
        · rw [if_neg hc]; rfl
      have ht1 : ¬(i + 1 ≤ e ∧ fires r (rest.getD (e - (i + 1)) []) = true) :=
        fun hh => absurd hh.1 (by omega)
      have ht2 : ¬(i ≤ e ∧ fires r ((l :: rest).getD (e - i) []) = true) :=
        fun hh => absurd hh.1 (by omega)
      rw [hhead, if_neg ht1, if_neg ht2]

/-- The fire condition of `onRemoveLastListener` holds exactly when the list
was non-empty and erasing every occurrence of `r` empties it. -/
theorem fires_iff (r : EventListener) (l : List EventListener) :
    fires r l = true ↔ l ≠ [] ∧ eraseAll l r = [] := by
  simp only [fires, Bool.and_eq_true, List.any_eq_true, List.isEmpty_iff]
  constructor
  · rintro ⟨⟨x, hx, _⟩, hfil⟩
    refine ⟨?_, hfil⟩
    rintro rfl
    exact absurd hx (List.not_mem_nil x)
  · rintro ⟨hne, hfil⟩
    refine ⟨?_, hfil⟩
    cases l with
    | nil => exact absurd rfl hne
    | cons a t =>
      have hmem : a ∉ eraseAll (a :: t) r := by rw [hfil]; exact List.not_mem_nil a
      have ha : ¬((a != r) = true) := fun hb =>
        hmem (List.mem_filter.mpr ⟨List.mem_cons_self a t, hb⟩)
      refine ⟨a, List.mem_cons_self a t, ?_⟩
      simpa using ha

theorem remove_count (st : EventsState) (r : EventListener) (e : Nat) :
    countHook (Hook.removeLast e) (Events.remove st r).2 =
      if listAt st e ≠ [] ∧ eraseAll (listAt st e) r = [] then 1 else 0 := by
  simp only [Events.remove, listAt]
  rw [removeLoop_count]
  by_cases h : fires r (st.m_listeners.getD (e - 0) []) = true
  · rw [if_pos ⟨Nat.zero_le e, h⟩]
    rw [Nat.sub_zero] at h
    rw [if_pos ((fires_iff r _).mp h)]
  · rw [if_neg (fun hc => h hc.2)]
    rw [Nat.sub_zero] at h
    rw [if_neg (fun hc => h ((fires_iff r _).mpr hc))]

theorem removeLoop_no_addFirst (r : EventListener) :
    ∀ (ls : List (List EventListener)) (i e : Nat),
      countHook (Hook.addFirst e) (removeLoop r ls i).2 = 0
  | [], _, _ => rfl
  | l :: rest, i, e => by
    simp only [removeLoop, countHook_append]
    rw [removeLoop_no_addFirst r rest (i + 1) e]
    by_cases hc : ((l.any fun x => x == r) && (eraseAll l r).isEmpty) = true
    · rw [if_pos hc]; simp [countHook]
    · rw [if_neg hc]; rfl

/-- After erasing every occurrence of `r`, no occurrence of `r` remains. -/
theorem eraseAll_no_occurrence (l : List EventListener) (r : EventListener) :
    (eraseAll l r).any (fun x => x == r) = false := by
  rw [List.any_eq_false]
  intro x hx
  have hmem := List.mem_filter.mp hx
  simpa using hmem.2

theorem hasListener_remove (st : EventsState) (r : EventListener) :
    Events.hasListener (Events.remove st r).1 r = false := by
  simp only [Events.hasListener, Events.remove]
  rw [removeLoop_fst, List.any_map, List.any_eq_false]
  intro l _
  simp [Function.comp, eraseAll_no_occurrence l r]

/-! ## Operation sequences (for the hook-transition invariant) -/

/-- One scripted mutation of an `Events` table: `add(e, r)` (as performed by
`Events_on`) or `remove(r)` (as performed by `Events_off`). -/
inductive Op
  | addOp (eventType : Nat) (callbackRef : EventListener)
  | removeOp (callbackRef : EventListener)
deriving DecidableEq, Repr

/-- Execute one operation, returning the new state and the hooks fired. -/
def step (st : EventsState) : Op → EventsState × List Hook
  | Op.addOp e r => Events.add st e r
  | Op.removeOp r => Events.remove st r

/-- Execute a sequence of operations, concatenating the fired hooks. -/
def runOps : EventsState → List Op → EventsState × List Hook
  | st, [] => (st, [])
  | st, op :: ops =>
    let s1 := step st op
    let rest := runOps s1.1 ops
    (rest.1, s1.2 ++ rest.2)

/-- Number of empty → non-empty transitions of event `e`'s listener list
along an operation sequence. -/
def upTransitions (e : Nat) : EventsState → List Op → Nat
  | _, [] => 0
  | st, op :: ops =>
    (if listAt st e = [] ∧ listAt (step st op).1 e ≠ [] then 1 else 0) +
      upTransitions e (step st op).1 ops

/-- Number of non-empty → empty transitions of event `e`'s listener list
along an operation sequence. -/
def downTransitions (e : Nat) : EventsState → List Op → Nat
  | _, [] => 0
  | st, op :: ops =>
    (if listAt st e ≠ [] ∧ listAt (step st op).1 e = [] then 1 else 0) +
      downTransitions e (step st op).1 ops

theorem step_count_addFirst (st : EventsState) (op : Op) (e : Nat) :
    countHook (Hook.addFirst e) (step st op).2 =
      if listAt st e = [] ∧ listAt (step st op).1 e ≠ [] then 1 else 0 := by
  cases op with
  | addOp e' r =>
    simp only [step]
    rw [add_hooks]
    have hiff : (listAt st e = [] ∧ listAt (Events.add st e' r).1 e ≠ []) ↔
        (e = e' ∧ listAt st e' = []) := by
      rw [add_listAt]
      by_cases he : e = e'
      · subst he
        rw [if_pos rfl]
        constructor
        · rintro ⟨h1, _⟩
          exact ⟨rfl, h1⟩
        · rintro ⟨_, h1⟩
          exact ⟨h1, by simp⟩
      · rw [if_neg he]
        constructor
        · rintro ⟨h1, h2⟩
          exact absurd h1 h2
        · rintro ⟨h1, _⟩
          exact absurd h1 he
    by_cases hc : e = e' ∧ listAt st e' = []
    · rw [if_pos hc.2, if_pos (hiff.mpr hc), countHook_single_addFirst,
        if_pos hc.1.symm]
    · rw [if_neg (fun hh => hc (hiff.mp hh))]
      by_cases hl : listAt st e' = []
      · rw [if_pos hl, countHook_single_addFirst,
          if_neg (fun hh : e' = e => hc ⟨hh.symm, hl⟩)]
      · rw [if_neg hl]; rfl
  | removeOp r =>
    simp only [step]
    have hz : countHook (Hook.addFirst e) (Events.remove st r).2 = 0 := by
      simp only [Events.remove]
      exact removeLoop_no_addFirst r st.m_listeners 0 e
    rw [hz]
    have hcond : ¬(listAt st e = [] ∧ listAt (Events.remove st r).1 e ≠ []) := by
      rintro ⟨h1, h2⟩
      rw [remove_listAt, h1] at h2
      exact h2 rfl
    rw [if_neg hcond]

theorem step_count_removeLast (st : EventsState) (op : Op) (e : Nat) :
    countHook (Hook.removeLast e) (step st op).2 =
      if listAt st e ≠ [] ∧ listAt (step st op).1 e = [] then 1 else 0 := by
  cases op with
  | addOp e' r =>
    simp only [step]
    rw [add_hooks]
    have hcond : ¬(listAt st e ≠ [] ∧ listAt (Events.add st e' r).1 e = []) := by
      rintro ⟨h1, h2⟩
      rw [add_listAt] at h2
      by_cases he : e = e'
      · rw [if_pos he] at h2
        exact absurd h2 (by simp)
      · rw [if_neg he] at h2
        exact h1 h2
    rw [if_neg hcond]
    by_cases hl : listAt st e' = []
    · rw [if_pos hl]; simp [countHook]
    · rw [if_neg hl]; rfl
  | removeOp r =>
    simp only [step]
    rw [remove_count]
    simp only [remove_listAt]

theorem runOps_count_up (e : Nat) :
    ∀ (ops : List Op) (st : EventsState),
      countHook (Hook.addFirst e) (runOps st ops).2 = upTransitions e st ops
  | [], _ => rfl
  | op :: ops, st => by
    simp only [runOps, upTransitions, countHook_append]
    rw [step_count_addFirst, runOps_count_up e ops (step st op).1]

theorem runOps_count_down (e : Nat) :
    ∀ (ops : List Op) (st : EventsState),
      countHook (Hook.removeLast e) (runOps st ops).2 = downTransitions e st ops
  | [], _ => rfl
  | op :: ops, st => by
    simp only [runOps, downTransitions, countHook_append]
    rw [step_count_removeLast, runOps_count_down e ops (step st op).1]

theorem callLoop_spec (runCb : EventListener → CallResult) :
    ∀ (l : List EventListener),
      callLoop runCb l = (l, l.filterMap (fun r => errMsgOf (runCb r)))
  | [] => rfl
  | r :: rest => by
    have ih := callLoop_spec runCb rest
    cases h : runCb r with
    | ok => simp [callLoop, h, ih, errMsgOf, List.filterMap_cons]
    | err m =>
      cases m with
      | none => simp [callLoop, h, ih, errMsgOf, List.filterMap_cons]
      | some s => simp [callLoop, h, ih, errMsgOf, List.filterMap_cons]

/-! ## Claim theorems -/

/-- C1: for every sequence of add/remove operations on an `Events` table and
every event type `e`, `onAddFirstListener(e)` fires exactly as many times as
`e`'s listener list transitions from empty to non-empty, and
`onRemoveLastListener(e)` fires exactly as many times as it transitions from
non-empty to empty — so never for an add to an already non-empty list nor
for a remove that does not empty a list (removes of absent handles
included). -/
theorem events_hook_transitions (st : EventsState) (ops : List Op) (e : Nat) :
    countHook (Hook.addFirst e) (runOps st ops).2 = upTransitions e st ops ∧
    countHook (Hook.removeLast e) (runOps st ops).2 = downTransitions e st ops :=
  ⟨runOps_count_up e ops st, runOps_count_down e ops st⟩

/-- C2: `Events::call` invokes every handle registered for the event type,
in registration order (first component), and the console sink receives
exactly the error messages of the failing callbacks, in the same order
(second component): a failing listener never prevents later listeners from
running, and — the return type being total, each callback guarded by
`lua_pcall` and the loop by `try/catch` — no error propagates to the
notification source. -/
theorem call_invokes_all_in_order (st : EventsState) (e : Nat)
    (runCb : EventListener → CallResult) :
    (Events.call st e runCb).1 = listAt st e ∧
    (Events.call st e runCb).2 =
      (listAt st e).filterMap (fun r => errMsgOf (runCb r)) := by
  unfold Events.call
  by_cases h : st.m_listeners.length ≤ e
  · rw [if_pos h]
    have hempty : listAt st e = [] := List.getD_eq_default _ _ h
    rw [hempty]
    exact ⟨rfl, rfl⟩
  · rw [if_neg h, callLoop_spec]
    exact ⟨rfl, rfl⟩

/-- C3: `Events::remove(handle)` removes every occurrence of the handle from
every event type's list (so `hasListener(handle)` is false immediately
afterward), and fires `onRemoveLastListener` exactly once for each list the
removal empties. -/
theorem remove_all_occurrences (st : EventsState) (r : EventListener) :
    Events.hasListener (Events.remove st r).1 r = false ∧
    (∀ e, listAt (Events.remove st r).1 e = eraseAll (listAt st e) r) ∧
    (∀ e, countHook (Hook.removeLast e) (Events.remove st r).2 =
      if listAt st e ≠ [] ∧ eraseAll (listAt st e) r = [] then 1 else 0) :=
  ⟨hasListener_remove st r, remove_listAt st r, remove_count st r⟩

/-- C4 (code-bug evaluation): on a `SpriteEvents` whose sprite id no longer
resolves (`doc()` returns null) but which is still observing the undo
history, removing the last `change` listener runs
`disconnectFromUndoHistory(doc())`, which dereferences the null `Doc*`
(`doc->undoHistory()`) instead of being a silent no-op — unlike the
destructor, which guards the same call with `if (doc)`. -/
theorem spriteEvents_removeLastListener_nullDoc :
    SpriteEvents.onRemoveLastListener (fun _ => false) ⟨1, true⟩
      SpriteEvents.Change =
      Except.error "null pointer dereference: doc->undoHistory()" := rfl

theorem find_erased_none (reg : List SpriteEventsState) (k : Nat) :
    (reg.filter (fun st => st.m_spriteId != k)).find?
      (fun st => st.m_spriteId == k) = none := by
  rw [List.find?_eq_none]
  intro x hx
  have hmem := (List.mem_filter.mp hx).2
  simpa using hmem

/-- C6: when `onCloseDocument` is received by a registered `SpriteEvents`,
its own entry leaves the process-wide registry synchronously and the erased
instance's destructor runs, completing the undo-history unsubscribe before
releasing the document observer registration; and the application exit
signal clears the whole registry, destroying every remaining instance and
leaving the registry empty. -/
theorem spriteEvents_lifecycle (resolvable : Nat → Bool)
    (reg : List SpriteEventsState) (self entry : SpriteEventsState)
    (h : reg.find? (fun st => st.m_spriteId == self.m_spriteId) = some entry) :
    (SpriteEvents.onCloseDocument resolvable reg self).1.find?
        (fun st => st.m_spriteId == self.m_spriteId) = none ∧
    (SpriteEvents.onCloseDocument resolvable reg self).2 =
      SpriteEvents.dtor resolvable entry ∧
    (entry.m_observingUndo = true → resolvable entry.m_spriteId = true →
      SpriteEvents.dtor resolvable entry =
        [DtorAction.disconnectUndo, DtorAction.removeDocObserver]) ∧
    (clearRegistry resolvable reg).1 = [] ∧
    (clearRegistry resolvable reg).2 =
      (reg.map (SpriteEvents.dtor resolvable)).flatten := by
  refine ⟨?_, ?_, ?_, rfl, rfl⟩
  · simp only [SpriteEvents.onCloseDocument, h]
    exact find_erased_none reg self.m_spriteId
  · simp only [SpriteEvents.onCloseDocument, h]
  · intro ho hr
    simp [SpriteEvents.dtor, hr, ho]

/-- Witness for C6 at a concrete registry holding the closing instance. -/
theorem spriteEvents_lifecycle_witness :
    (SpriteEvents.onCloseDocument (fun _ => true) [⟨1, true⟩] ⟨1, true⟩).1.find?
        (fun st => st.m_spriteId == (⟨1, true⟩ : SpriteEventsState).m_spriteId) =
      none ∧
    (SpriteEvents.onCloseDocument (fun _ => true) [⟨1, true⟩] ⟨1, true⟩).2 =
      [DtorAction.disconnectUndo, DtorAction.removeDocObserver] := by
  have h := spriteEvents_lifecycle (fun _ => true) [⟨1, true⟩] ⟨1, true⟩
    ⟨1, true⟩ rfl
  exact ⟨h.1, h.2.1.trans (h.2.2.1 rfl rfl)⟩

/-- C7: `Events_on` with an unrecognized string event name raises
"invalid event name to listen" and leaves the table and the callback
registry untouched; with a recognized name and a non-function callback it
raises "second argument must be a function", also without mutation;
otherwise it refs the callback into the registry, appends the fresh handle
to the event's list, and returns that handle. -/
theorem events_on_spec (evType : String → Int) (evs : EventsState)
    (reg : LuaRegistry) (s : String) (arg3 : LuaValue) :
    (evType s < 0 →
      Events_on evType evs reg (LuaValue.str s) arg3 =
        (OnOutcome.error "invalid event name to listen", evs, reg)) ∧
    (0 ≤ evType s → (∀ fid, arg3 ≠ LuaValue.func fid) →
      Events_on evType evs reg (LuaValue.str s) arg3 =
        (OnOutcome.error "second argument must be a function", evs, reg)) ∧
    (∀ fid, 0 ≤ evType s →
      Events_on evType evs reg (LuaValue.str s) (LuaValue.func fid) =
        (OnOutcome.handle reg.nextRef,
         (Events.add evs (evType s).toNat reg.nextRef).1,
         ⟨reg.entries ++ [(reg.nextRef, fid)], reg.nextRef + 1⟩) ∧
      listAt (Events.add evs (evType s).toNat reg.nextRef).1 (evType s).toNat =
        listAt evs (evType s).toNat ++ [reg.nextRef]) := by
  refine ⟨?_, ?_, ?_⟩
  · intro h
    simp only [Events_on, lua_tostring]
    rw [if_pos h]
  · intro h hf
    simp only [Events_on, lua_tostring]
    rw [if_neg (not_lt.mpr h)]
  · intro fid h
    constructor
    · simp only [Events_on, lua_tostring, luaL_ref]
      rw [if_neg (not_lt.mpr h)]
    · rw [add_listAt, if_pos rfl]

/-- Witness for C7: all three branches at concrete inputs, on the
`AppEvents` name table. -/
theorem events_on_spec_witness :
    Events_on AppEvents.eventType ⟨[]⟩ ⟨[], 1⟩ (LuaValue.str "nosuch")
        (LuaValue.func 0) =
      (OnOutcome.error "invalid event name to listen", ⟨[]⟩, ⟨[], 1⟩) ∧
    Events_on AppEvents.eventType ⟨[]⟩ ⟨[], 1⟩ (LuaValue.str "sitechange")
        LuaValue.nil =
      (OnOutcome.error "second argument must be a function", ⟨[]⟩, ⟨[], 1⟩) ∧
    Events_on AppEvents.eventType ⟨[]⟩ ⟨[], 1⟩ (LuaValue.str "sitechange")
        (LuaValue.func 0) =
      (OnOutcome.handle 1, ⟨[[1]]⟩, ⟨[(1, 0)], 2⟩) := by
  refine ⟨?_, ?_, ?_⟩
  · exact (events_on_spec AppEvents.eventType ⟨[]⟩ ⟨[], 1⟩ "nosuch"
      (LuaValue.func 0)).1 (by decide)
  · exact (events_on_spec AppEvents.eventType ⟨[]⟩ ⟨[], 1⟩ "sitechange"
      LuaValue.nil).2.1 (by decide) (fun fid => by simp)
  · exact ((events_on_spec AppEvents.eventType ⟨[]⟩ ⟨[], 1⟩ "sitechange"
      (LuaValue.func 0)).2.2 0 (by decide)).1.trans (by decide)

/-- C8: `Events_off` with an argument that is neither an integer handle nor
a function raises "first argument must be a function or a EventListener";
with a handle this table does not own it is a silent no-op leaving table and
registry unchanged; with an owned handle (handles from `luaL_ref` are never
`LUA_REFNIL`) the handle is removed from the table and then released from
the registry. -/
theorem events_off_spec (evs : EventsState) (reg : LuaRegistry) :
    (Events_off evs reg LuaValue.nil =
      (some "first argument must be a function or a EventListener", evs, reg)) ∧
    (∀ s, Events_off evs reg (LuaValue.str s) =
      (some "first argument must be a function or a EventListener", evs, reg)) ∧
    (Events_off evs reg LuaValue.other =
      (some "first argument must be a function or a EventListener", evs, reg)) ∧
    (∀ n, Events.hasListener evs n = false →
      Events_off evs reg (LuaValue.num n) = (none, evs, reg)) ∧
    (∀ n, n ≠ LUA_REFNIL → Events.hasListener evs n = true →
      Events_off evs reg (LuaValue.num n) =
        (none, (Events.remove evs n).1, luaL_unref reg n) ∧
      Events.hasListener (Events.remove evs n).1 n = false) := by
  refine ⟨rfl, fun s => rfl, rfl, ?_, ?_⟩
  · intro n h
    simp [Events_off, Events_offFinish, h]
  · intro n hn h
    refine ⟨?_, hasListener_remove evs n⟩
    simp only [Events_off, Events_offFinish]
    rw [if_pos (by simp [h, hn] : (n != LUA_REFNIL &&
      Events.hasListener evs n) = true)]

/-- Witness for C8: a no-op for an unowned handle and a removal of an owned
one, at a concrete table and registry. -/
theorem events_off_spec_witness :
    Events_off ⟨[[5]]⟩ ⟨[(5, 0)], 6⟩ (LuaValue.num 9) =
      (none, ⟨[[5]]⟩, ⟨[(5, 0)], 6⟩) ∧
    Events_off ⟨[[5]]⟩ ⟨[(5, 0)], 6⟩ (LuaValue.num 5) =
      (none, ⟨[[]]⟩, ⟨[], 6⟩) := by
  have h := events_off_spec ⟨[[5]]⟩ ⟨[(5, 0)], 6⟩
  refine ⟨h.2.2.2.1 9 (by decide), ?_⟩
  exact ((h.2.2.2.2 5 (by decide) (by decide)).1).trans (by decide)

/-- C9 counterexample: `"Sitechange"` differs from the recognized name
`"sitechange"` only in letter case, yet `AppEvents::eventType` maps it to
the `Unknown` sentinel, not to `SiteChange` — the `strcmp`-based lookup is
case-sensitive, refuting the claimed case-insensitive mapping. -/
theorem eventType_case_sensitive_cex :
    AppEvents.eventType "Sitechange" = AppEvents.Unknown ∧
    AppEvents.eventType "sitechange" = AppEvents.SiteChange ∧
    AppEvents.Unknown ≠ AppEvents.SiteChange := by decide

/-- C9 (amended): the event-name lookup is an exact, case-sensitive match:
each recognized lowercase name maps to its distinct non-negative event type,
and every other string — case variants of recognized names included — maps
to the `Unknown` (-1) sentinel, which is negative and therefore rejects
registration in `Events_on`. -/
theorem eventType_exact_match (s : String) :
    AppEvents.eventType "sitechange" = AppEvents.SiteChange ∧
    AppEvents.eventType "fgcolorchange" = AppEvents.FgColorChange ∧
    AppEvents.eventType "bgcolorchange" = AppEvents.BgColorChange ∧
    SpriteEvents.eventType "change" = SpriteEvents.Change ∧
    SpriteEvents.eventType "filenamechange" = SpriteEvents.FilenameChange ∧
    (s ≠ "sitechange" → s ≠ "fgcolorchange" → s ≠ "bgcolorchange" →
      AppEvents.eventType s = AppEvents.Unknown) ∧
    (s ≠ "change" → s ≠ "filenamechange" →
      SpriteEvents.eventType s = SpriteEvents.Unknown) ∧
    AppEvents.Unknown < 0 ∧ SpriteEvents.Unknown < 0 := by
  refine ⟨by decide, by decide, by decide, by decide, by decide, ?_, ?_,
    by decide, by decide⟩
  · intro h1 h2 h3
    simp [AppEvents.eventType, h1, h2, h3]
  · intro h1 h2
    simp [SpriteEvents.eventType, h1, h2]

/-- Witness for the amended C9 at concrete case-variant names. -/
theorem eventType_exact_match_witness :
    AppEvents.eventType "SITECHANGE" = AppEvents.Unknown ∧
    SpriteEvents.eventType "Change" = SpriteEvents.Unknown := by
  have h1 := eventType_exact_match "SITECHANGE"
  have h2 := eventType_exact_match "Change"
  exact ⟨h1.2.2.2.2.2.1 (by decide) (by decide) (by decide),
    h2.2.2.2.2.2.2.1 (by decide) (by decide)⟩

/-- C10 counterexample: the Lua number `7` is not a string, yet
`Events_on` raises the script error "invalid event name to listen" for it
instead of silently returning no value — `lua_tostring` converts numbers,
so only nil/function/table-like first arguments take the silent path. -/
theorem events_on_number_arg_cex :
    (Events_on AppEvents.eventType ⟨[]⟩ ⟨[], 1⟩ (LuaValue.num 7)
      (LuaValue.func 0)).1 = OnOutcome.error "invalid event name to listen" := by
  decide

/-- C10 (amended): when the first argument of `on()` is neither a string
nor a number, `lua_tostring` yields null and the call returns no value,
raises no error, and mutates neither the listener lists nor the callback
registry; a number first argument — integer or float — is converted by
`lua_tostring` to its decimal string and then handled exactly like that
string event name, hence rejected as an invalid event name (no decimal
numeral is a recognized name). -/
theorem events_on_nonstring_spec (evType : String → Int) (evs : EventsState)
    (reg : LuaRegistry) (arg3 : LuaValue) :
    Events_on evType evs reg LuaValue.nil arg3 = (OnOutcome.noValue, evs, reg) ∧
    Events_on evType evs reg LuaValue.other arg3 = (OnOutcome.noValue, evs, reg) ∧
    (∀ fid, Events_on evType evs reg (LuaValue.func fid) arg3 =
      (OnOutcome.noValue, evs, reg)) ∧
    (∀ n, Events_on evType evs reg (LuaValue.num n) arg3 =
      Events_on evType evs reg (LuaValue.str (toString n)) arg3) ∧
    (∀ s, Events_on evType evs reg (LuaValue.flt s) arg3 =
      Events_on evType evs reg (LuaValue.str s) arg3) :=
  ⟨rfl, rfl, fun _ => rfl, fun _ => rfl, fun _ => rfl⟩

